import Mathlib

/-!
Shallow embedding of the pokemon-clubhouse core, for checking the
natural-language specification against the code.

Embedded components:
* `MapR`   — client/src/engine/map/MapRenderer.ts (tile resolution,
  autotile quadrant classification, neighbor queries, blocking table);
* `Engine` — client/src/engine/Player.ts (movement state machine);
* `Server` — the WebSocket server (map-partitioned broadcast protocol).

Numbers follow the source: tile IDs and map IDs are naturals, grid
coordinates are integers, wall-clock quantities are rationals.
-/

namespace MapR

/-- Map data handed to `MapRenderer`: `width`, `height`, and a list of
layers (bottom to top), each a row-major grid of tile IDs. -/
structure MapData where
  width : Nat
  height : Nat
  layers : List (List (List Nat))
deriving DecidableEq

/-- JS `layer[y][x]`: `none` when the row or the cell is missing. -/
def cellAt (layer : List (List Nat)) (x y : Nat) : Option Nat :=
  (layer.get? y).bind fun row => row.get? x

/-- The scan inside `getTileIdAt`: walk the given layers in order and
return the first tile ID that is present and non-zero, else 0.  The
source iterates `layerIndex` from `layers.length - 1` down to 0, so the
caller passes the layer list reversed (top-most first).  A missing row,
a missing cell and a 0 cell are all skipped (`!layer[y] || !layer[y][x]`
is truthy for each). -/
def topNonzeroTile : List (List (List Nat)) → Nat → Nat → Int
  | [], _, _ => 0
  | layer :: rest, x, y =>
    match cellAt layer x y with
    | some t => if t = 0 then topNonzeroTile rest x y else (t : Int)
    | none => topNonzeroTile rest x y

/-- `MapRenderer.getTileIdAt(x, y)`: `-1` out of bounds, otherwise the
top-most non-empty tile ID across all layers, `0` when every layer is
empty there. -/
def getTileIdAt (m : MapData) (x y : Int) : Int :=
  if x < 0 ∨ (m.width : Int) ≤ x ∨ y < 0 ∨ (m.height : Int) ≤ y then -1
  else topNonzeroTile m.layers.reverse x.toNat y.toNat

/-- The neighbor query of `renderRMXPAutotile`:
`this.getTileIdAt(x + dx, y + dy) === tileId` — exact equality of the
rendered tile ID with the top-most non-empty tile ID at the offset. -/
def neighborSameAt (m : MapData) (tileId : Int) (x y dx dy : Int) : Bool :=
  getTileIdAt m (x + dx) (y + dy) == tileId

/-- `hasUp` flag of `renderRMXPAutotile`. -/
def hasUp (m : MapData) (tileId : Int) (x y : Int) : Bool :=
  neighborSameAt m tileId x y 0 (-1)

/-- `hasRight` flag of `renderRMXPAutotile`. -/
def hasRight (m : MapData) (tileId : Int) (x y : Int) : Bool :=
  neighborSameAt m tileId x y 1 0

/-- `hasDown` flag of `renderRMXPAutotile`. -/
def hasDown (m : MapData) (tileId : Int) (x y : Int) : Bool :=
  neighborSameAt m tileId x y 0 1

/-- `hasLeft` flag of `renderRMXPAutotile`. -/
def hasLeft (m : MapData) (tileId : Int) (x y : Int) : Bool :=
  neighborSameAt m tileId x y (-1) 0

/-- `hasUpLeft` flag of `renderRMXPAutotile`. -/
def hasUpLeft (m : MapData) (tileId : Int) (x y : Int) : Bool :=
  neighborSameAt m tileId x y (-1) (-1)

/-- `hasUpRight` flag of `renderRMXPAutotile`. -/
def hasUpRight (m : MapData) (tileId : Int) (x y : Int) : Bool :=
  neighborSameAt m tileId x y 1 (-1)

/-- `hasDownLeft` flag of `renderRMXPAutotile`. -/
def hasDownLeft (m : MapData) (tileId : Int) (x y : Int) : Bool :=
  neighborSameAt m tileId x y (-1) 1

/-- `hasDownRight` flag of `renderRMXPAutotile`. -/
def hasDownRight (m : MapData) (tileId : Int) (x y : Int) : Bool :=
  neighborSameAt m tileId x y 1 1

/-- The four quadrants of a rendered tile. -/
inductive Quadrant
  | TL
  | TR
  | BL
  | BR
deriving DecidableEq

/-- The `getMiniTile` helper inside `renderRMXPAutotile`: picks the
mini-tile (column, row) in the 6-wide pattern sheet from the two
cardinal flags, the diagonal flag and the quadrant role. -/
def getMiniTile (hasAdjacent1 hasAdjacent2 hasDiagonal : Bool)
    (quadrant : Quadrant) : Nat × Nat :=
  if hasAdjacent1 && hasAdjacent2 then
    if hasDiagonal then
      match quadrant with
      | .TL => (1, 3)
      | .TR => (2, 3)
      | .BL => (1, 4)
      | .BR => (2, 4)
    else
      match quadrant with
      | .TL => (0, 0)
      | .TR => (1, 0)
      | .BL => (4, 0)
      | .BR => (5, 0)
  else if !hasAdjacent1 && !hasAdjacent2 then
    match quadrant with
    | .TL => (0, 2)
    | .TR => (5, 2)
    | .BL => (0, 2)
    | .BR => (5, 2)
  else if hasAdjacent1 && !hasAdjacent2 then
    match quadrant with
    | .TL => (1, 2)
    | .TR => (2, 2)
    | .BL => (3, 2)
    | .BR => (4, 2)
  else
    match quadrant with
    | .TL => (0, 3)
    | .TR => (5, 3)
    | .BL => (0, 4)
    | .BR => (5, 4)

/-- `renderRMXPAutotile`'s four quadrant selections, as a function of
the eight neighbor flags:
`tl = getMiniTile(hasLeft, hasUp, hasUpLeft, TL)` and so on. -/
def quadrantTiles (hUp hRight hDown hLeft hUpLeft hUpRight hDownLeft hDownRight : Bool) :
    (Nat × Nat) × (Nat × Nat) × (Nat × Nat) × (Nat × Nat) :=
  (getMiniTile hLeft hUp hUpLeft .TL,
   getMiniTile hRight hUp hUpRight .TR,
   getMiniTile hLeft hDown hDownLeft .BL,
   getMiniTile hRight hDown hDownRight .BR)

/-- Result of `getTileCoords`: either the marker for the autotile path
(`getAutotileCoords`, which only consults loaded pattern images) or a
static pixel offset into the tileset. -/
inductive TileCoords
  | autotileDelegate (tileId : Nat)
  | coords (x y : Nat)
deriving DecidableEq

/-- `this.tilesetColumns`, set to 8 in the constructor. -/
def tilesetColumns : Nat := 8

/-- `MapRenderer.getTileCoords(tileId)`: `null` for 0, the autotile path
for IDs below 384, otherwise column/row of `tileId - 384` in the 8-wide
tileset scaled by the tile size. -/
def getTileCoords (tileSize : Nat) (tileId : Nat) : Option TileCoords :=
  if tileId = 0 then none
  else if tileId < 384 then some (.autotileDelegate tileId)
  else
    let tilesetIndex := tileId - 384
    let col := tilesetIndex % tilesetColumns
    let row := tilesetIndex / tilesetColumns
    some (.coords (col * tileSize) (row * tileSize))

/-- The `blockingRanges` table of `isBlockingTile` (inclusive ranges). -/
def blockingRanges : List (Nat × Nat) :=
  [(800, 827), (1280, 1400), (1536, 1600), (1960, 2000),
   (2048, 2200), (2304, 2400), (3400, 3500)]

/-- `MapRenderer.isBlockingTile(tileId)`: 0 is never blocking; below
384 the source returns `tileId >= 2048 && tileId <= 2200`; at and above
384 it scans `blockingRanges`. -/
def isBlockingTile (tileId : Nat) : Bool :=
  if tileId = 0 then false
  else if tileId < 384 then decide (2048 ≤ tileId) && decide (tileId ≤ 2200)
  else blockingRanges.any fun r => decide (r.1 ≤ tileId) && decide (tileId ≤ r.2)

/-- A 2 x 1 map with one layer holding tile IDs 48 and 49: two autotile
IDs in the same 48-ID slot (slot 1) with different variations. -/
def mapTwoVariations : MapData :=
  { width := 2, height := 1, layers := [[[48, 49]]] }

end MapR

namespace Engine

/-- The shout of the `onMove` callback in `Player.ts`: the callback
receives `(x, y, direction, isMoving)`. -/
structure MoveEvent where
  x : Int
  y : Int
  direction : Nat
  isMoving : Bool
deriving DecidableEq

/-- `Player` of client/src/engine/Player.ts.  Grid coordinates are
integers; `moveProgress`, `moveSpeed`, `animationTimer` and
`frameInterval` are wall-clock quantities, modelled as rationals.
Sprite-sheet fields (`sprite`, `tileSize`, `spriteWidth`,
`spriteHeight`, `animationSpeed`) only affect rendering and are
omitted. -/
structure Player where
  x : Int
  y : Int
  isMoving : Bool
  moveProgress : ℚ
  moveSpeed : ℚ
  targetX : Int
  targetY : Int
  direction : Nat
  animationFrame : Nat
  animationTimer : ℚ
  frameInterval : ℚ
deriving DecidableEq

/-- The `Player` constructor: spawn idle at `(x, y)`, target equal to
the position, `moveSpeed = 4.5`, `frameInterval = 0.12`. -/
def Player.init (x y : Int) : Player :=
  { x := x, y := y, isMoving := false, moveProgress := 0,
    moveSpeed := 9 / 2, targetX := x, targetY := y, direction := 0,
    animationFrame := 0, animationTimer := 0, frameInterval := 12 / 100 }

/-- `Player.startMove(dx, dy)`: rejected when already moving, else set
direction from the delta, set the target one delta away, enter the
moving state and fire `onMove` with the pre-move position.  Returns the
boolean result, the new state and the fired events. -/
def Player.startMove (p : Player) (dx dy : Int) :
    Bool × Player × List MoveEvent :=
  if p.isMoving then (false, p, [])
  else
    let direction :=
      if 0 < dy then 0
      else if dy < 0 then 3
      else if dx < 0 then 1
      else if 0 < dx then 2
      else p.direction
    let p1 : Player :=
      { p with direction := direction, targetX := p.x + dx,
               targetY := p.y + dy, isMoving := true, moveProgress := 0 }
    (true, p1, [{ x := p.x, y := p.y, direction := direction, isMoving := true }])

/-- `Player.update(deltaTime)`: only acts in the moving state.  Advance
`moveProgress` by `moveSpeed * deltaTime`; on reaching 1, snap to the
target, go idle, reset progress and animation frame, and fire `onMove`
with the final position; otherwise advance the walk-cycle animation
timer, stepping `animationFrame` modulo 4 each `frameInterval`. -/
def Player.update (p : Player) (deltaTime : ℚ) : Player × List MoveEvent :=
  if p.isMoving then
    let progress := p.moveProgress + p.moveSpeed * deltaTime
    if 1 ≤ progress then
      let p1 : Player :=
        { p with x := p.targetX, y := p.targetY, isMoving := false,
                 moveProgress := 0, animationFrame := 0 }
      (p1, [{ x := p1.x, y := p1.y, direction := p.direction, isMoving := false }])
    else
      let timer := p.animationTimer + deltaTime
      if p.frameInterval ≤ timer then
        ({ p with moveProgress := progress, animationTimer := 0,
                  animationFrame := (p.animationFrame + 1) % 4 }, [])
      else
        ({ p with moveProgress := progress, animationTimer := timer }, [])
  else (p, [])

/-- `Player.setState(x, y, direction, isMoving)` (network
reconciliation): reset progress/animation when entering the moving
state, copy the fields, then derive the target from the direction when
moving, or collapse it onto the position when idle. -/
def Player.setState (p : Player) (x y : Int) (direction : Nat)
    (isMoving : Bool) : Player :=
  let p1 :=
    if isMoving && !p.isMoving then
      { p with moveProgress := 0, animationFrame := 0, animationTimer := 0 }
    else p
  let p2 : Player :=
    { p1 with x := x, y := y, direction := direction, isMoving := isMoving }
  if isMoving then
    { p2 with
      targetX := if direction = 2 then x + 1 else if direction = 1 then x - 1 else x,
      targetY := if direction = 0 then y + 1 else if direction = 3 then y - 1 else y }
  else
    { p2 with targetX := x, targetY := y }

/-- One operation on the player state machine, for stating sequences of
calls. -/
inductive PlayerOp
  | move (dx dy : Int)
  | upd (dt : ℚ)
  | set (x y : Int) (direction : Nat) (isMoving : Bool)

/-- Apply one operation, keeping only the resulting state. -/
def applyOp (p : Player) : PlayerOp → Player
  | .move dx dy => (p.startMove dx dy).2.1
  | .upd dt => (p.update dt).1
  | .set x y d mv => p.setState x y d mv

/-- The operations the claim quantifies over: `startMove` with a unit
delta, `update` with non-negative elapsed time, `setState` with one of
the four directions. -/
def validOp : PlayerOp → Bool
  | .move dx dy =>
    (dx == 0 && (dy == 1 || dy == -1)) || (dy == 0 && (dx == 1 || dx == -1))
  | .upd dt => decide (0 ≤ dt)
  | .set _ _ d _ => decide (d < 4)

/-- A concrete player captured mid-move, for exercising the state
machine: at (3, 4), moving toward (3, 5), progress 1/2. -/
def movingSample : Player :=
  { Player.init 3 4 with isMoving := true, targetY := 5, moveProgress := 1 / 2 }

/-- The target is exactly one tile from the position along one axis. -/
def OneTileAway (p : Player) : Prop :=
  (p.targetX = p.x ∧ (p.targetY = p.y + 1 ∨ p.targetY = p.y - 1)) ∨
  (p.targetY = p.y ∧ (p.targetX = p.x + 1 ∨ p.targetX = p.x - 1))

/-- The movement invariant: while moving the target is one tile away;
while idle the target coincides with the position. -/
def MotionInvariant (p : Player) : Prop :=
  (p.isMoving = true → OneTileAway p) ∧
  (p.isMoving = false → p.targetX = p.x ∧ p.targetY = p.y)

end Engine

namespace Server

/-- A connection handle (the `ws` object), modelled as an opaque
natural. -/
abbrev ConnId := Nat

/-- The server-side `Player` record (map-aware version): id (the UUID
string, modelled opaquely), grid position, direction, motion flag,
sprite index, current map. -/
structure SPlayer where
  id : Nat
  x : Int
  y : Int
  direction : Nat
  isMoving : Bool
  spriteId : Nat
  mapId : Nat
deriving DecidableEq

/-- The `ServerMessage` union sent to clients. -/
inductive ServerMsg
  | init (id : Nat) (players : List SPlayer)
  | playerJoin (player : SPlayer)
  | playerMove (id : Nat) (x y : Int) (direction : Nat) (isMoving : Bool) (mapId : Nat)
  | playerLeave (id : Nat)
deriving DecidableEq

/-- One outgoing send: destination connection and message. -/
structure Send where
  dest : ConnId
  msg : ServerMsg
deriving DecidableEq

/-- The `players` registry: `Map<WebSocket, Player>` in insertion
order.  Every tracked connection is open (`readyState === OPEN`). -/
abbrev ServerState := List (ConnId × SPlayer)

/-- `broadcastToMap(mapId, message, excludeWs)`: send to every tracked
connection whose record is on `mapId`, skipping the excluded one. -/
def broadcastToMap (st : ServerState) (mapId : Nat) (msg : ServerMsg)
    (excludeConn : Option ConnId) : List Send :=
  (st.filter fun e => e.2.mapId == mapId && some e.1 != excludeConn).map
    fun e => { dest := e.1, msg := msg }

/-- The messages a given connection receives from a list of sends, in
order. -/
def sentTo (sends : List Send) (c : ConnId) : List ServerMsg :=
  (sends.filter fun s => s.dest == c).map Send.msg

/-- `players.get(ws)`. -/
def getPlayer (st : ServerState) (conn : ConnId) : Option SPlayer :=
  (st.find? fun e => e.1 == conn).map Prod.snd

/-- In-place mutation of the record stored for `conn` (JS mutates the
object held in the Map, so insertion order is preserved). -/
def updatePlayer (st : ServerState) (conn : ConnId) (f : SPlayer → SPlayer) :
    ServerState :=
  st.map fun e => if e.1 == conn then (e.1, f e.2) else e

/-- The record created on connection: spawn at (20, 1) facing down,
idle, on map 79 (Pallet Town), with the drawn sprite index. -/
def defaultSpawn (pid spriteId : Nat) : SPlayer :=
  { id := pid, x := 20, y := 1, direction := 0, isMoving := false,
    spriteId := spriteId, mapId := 79 }

/-- The `wss.on('connection')` handler: insert the fresh record, send
INIT to the new connection with every record whose `mapId` equals the
new player's spawn map (the spriteId-repair `map` over that list is the
identity here, since `spriteId` is always present in the typed model),
then broadcast PLAYER_JOIN to the rest of that map. -/
def handleConnect (st : ServerState) (conn : ConnId) (pid spriteId : Nat) :
    ServerState × List Send :=
  let player := defaultSpawn pid spriteId
  let st1 := st ++ [(conn, player)]
  let playersOnSameMap := (st1.map Prod.snd).filter fun p => p.mapId == player.mapId
  let initMsg := ServerMsg.init pid playersOnSameMap
  let joinMsg := ServerMsg.playerJoin player
  (st1, { dest := conn, msg := initMsg } ::
        broadcastToMap st1 player.mapId joinMsg (some conn))

/-- The field mutation performed by the MOVE case: copy position,
direction and motion flag from the message, and the map ID when the
message carries one. -/
def moveUpdate (p : SPlayer) (x y : Int) (direction : Nat) (isMoving : Bool)
    (mapIdOpt : Option Nat) : SPlayer :=
  { p with x := x, y := y, direction := direction, isMoving := isMoving,
           mapId := mapIdOpt.getD p.mapId }

/-- The MOVE case of the message handler: update the sender's record,
then broadcast PLAYER_MOVE to the sender's (updated) map, excluding the
sender.  Unknown senders are ignored. -/
def handleMove (st : ServerState) (conn : ConnId) (x y : Int) (direction : Nat)
    (isMoving : Bool) (mapIdOpt : Option Nat) : ServerState × List Send :=
  match getPlayer st conn with
  | none => (st, [])
  | some p =>
    let p1 := moveUpdate p x y direction isMoving mapIdOpt
    let st1 := updatePlayer st conn fun _ => p1
    let msg := ServerMsg.playerMove p.id p1.x p1.y p1.direction p1.isMoving p1.mapId
    (st1, broadcastToMap st1 p1.mapId msg (some conn))

/-- The field mutation performed by the MAP_TRANSITION case: new
position, destination map, motion flag cleared. -/
def transUpdate (p : SPlayer) (x y : Int) (toMap : Nat) : SPlayer :=
  { p with x := x, y := y, mapId := toMap, isMoving := false }

/-- The MAP_TRANSITION case of the message handler, in source order:
(1) broadcast PLAYER_LEAVE to the old map (sender excluded, pre-mutation
state); (2) mutate the record; (3) broadcast PLAYER_JOIN to the new map
(sender excluded, post-mutation state); (4) send the sender one
PLAYER_JOIN per other occupant of the new map. -/
def handleMapTransition (st : ServerState) (conn : ConnId)
    (fromMap toMap : Nat) (x y : Int) : ServerState × List Send :=
  match getPlayer st conn with
  | none => (st, [])
  | some p =>
    let leaves := broadcastToMap st fromMap (.playerLeave p.id) (some conn)
    let p1 := transUpdate p x y toMap
    let st1 := updatePlayer st conn fun _ => p1
    let joins := broadcastToMap st1 toMap (.playerJoin p1) (some conn)
    let playersOnNewMap :=
      (st1.filter fun e => e.2.mapId == toMap && e.1 != conn).map Prod.snd
    let backfill := playersOnNewMap.map fun q => Send.mk conn (.playerJoin q)
    (st1, leaves ++ joins ++ backfill)

/-- Concrete three-connection state for the end-to-end scenarios:
connection 0 (player 100) and connection 1 (player 101) on map 79,
connection 2 (player 102) on map 5. -/
def stABC : ServerState :=
  [(0, { id := 100, x := 4, y := 4, direction := 0, isMoving := false,
         spriteId := 0, mapId := 79 }),
   (1, { id := 101, x := 6, y := 6, direction := 1, isMoving := false,
         spriteId := 1, mapId := 79 }),
   (2, { id := 102, x := 8, y := 8, direction := 2, isMoving := false,
         spriteId := 2, mapId := 5 })]

end Server

namespace Server

lemma sentTo_append (a b : List Send) (c : ConnId) :
    sentTo (a ++ b) c = sentTo a c ++ sentTo b c := by
  simp [sentTo, List.filter_append]

lemma sentTo_broadcast (st : ServerState) (m : Nat) (msg : ServerMsg)
    (exc : Option ConnId) (c : ConnId) :
    sentTo (broadcastToMap st m msg exc) c =
      (st.filter fun e => e.1 == c && (e.2.mapId == m && some e.1 != exc)).map
        fun _ => msg := by
  unfold sentTo broadcastToMap
  rw [List.filter_map, List.map_map, List.filter_filter]
  rfl

lemma sentTo_broadcast_excluded (st : ServerState) (m : Nat) (msg : ServerMsg)
    (c : ConnId) :
    sentTo (broadcastToMap st m msg (some c)) c = [] := by
  rw [sentTo_broadcast]
  have h : (st.filter fun e =>
      e.1 == c && (e.2.mapId == m && some e.1 != some c)) = [] := by
    rw [List.filter_eq_nil_iff]
    intro e _
    by_cases h : e.1 = c
    · simp [h]
    · simp [h]
  rw [h, List.map_nil]

lemma filter_pair_eq (st : ServerState) (c : ConnId) (q : SPlayer)
    (P : ConnId × SPlayer → Bool)
    (hnd : (st.map Prod.fst).Nodup) (hmem : (c, q) ∈ st) :
    st.filter (fun e => e.1 == c && P e) = if P (c, q) then [(c, q)] else [] := by
  induction st with
  | nil => simp at hmem
  | cons a t ih =>
    rw [List.map_cons, List.nodup_cons] at hnd
    rcases List.mem_cons.mp hmem with heq | hmem'
    · subst heq
      have ht : t.filter (fun e => e.1 == c && P e) = [] := by
        rw [List.filter_eq_nil_iff]
        intro e he
        have hne : e.1 ≠ c := by
          intro hc
          exact hnd.1 (hc ▸ List.mem_map.mpr ⟨e, he, rfl⟩)
        simp [hne]
      rw [List.filter_cons, ht]
      by_cases hP : P (c, q) = true
      · simp [hP]
      · simp [hP]
    · have hac : a.1 ≠ c := by
        intro hc
        exact hnd.1 (hc ▸ List.mem_map.mpr ⟨(c, q), hmem', rfl⟩)
      rw [List.filter_cons]
      simp only [show (a.1 == c) = false from by simp [hac], Bool.false_and,
        Bool.false_eq_true, if_false]
      exact ih hnd.2 hmem'

lemma sentTo_broadcast_mem (st : ServerState) (m : Nat) (msg : ServerMsg)
    (exc : Option ConnId) (c : ConnId) (q : SPlayer)
    (hnd : (st.map Prod.fst).Nodup) (hmem : (c, q) ∈ st) :
    sentTo (broadcastToMap st m msg exc) c =
      if q.mapId = m ∧ exc ≠ some c then [msg] else [] := by
  rw [sentTo_broadcast, filter_pair_eq st c q _ hnd hmem]
  by_cases h1 : q.mapId = m
  · by_cases h2 : exc = some c
    · subst h2
      simp [h1]
    · have hb : (some c != exc) = true := bne_iff_ne.mpr fun hc => h2 hc.symm
      simp [h1, hb, h2]
  · simp [h1]

lemma sentTo_uniform (l : List SPlayer) (conn : ConnId) (g : SPlayer → ServerMsg)
    (c : ConnId) :
    sentTo (l.map fun q => { dest := conn, msg := g q }) c =
      if conn = c then l.map g else [] := by
  unfold sentTo
  rw [List.filter_map, List.map_map]
  by_cases h : conn = c
  · subst h
    have hp : ((fun s => s.dest == conn) ∘
        fun q => ({ dest := conn, msg := g q } : Send)) = fun _ => true := by
      funext q
      simp
    rw [hp]
    simp [Function.comp]
  · have hp : ((fun s => s.dest == c) ∘
        fun q => ({ dest := conn, msg := g q } : Send)) = fun _ => false := by
      funext q
      simp [h]
    rw [hp]
    simp [h]

lemma getPlayer_mem (st : ServerState) (conn : ConnId) (p : SPlayer)
    (h : getPlayer st conn = some p) : (conn, p) ∈ st := by
  unfold getPlayer at h
  rcases Option.map_eq_some'.mp h with ⟨e, hfind, hsnd⟩
  have hmem := List.mem_of_find?_eq_some hfind
  have hpred := List.find?_some hfind
  have h1 : e.1 = conn := by simpa using hpred
  have : e = (conn, p) := by
    cases e
    simp only at h1 hsnd
    rw [h1, hsnd]
  rwa [this] at hmem

lemma keys_updatePlayer (st : ServerState) (conn : ConnId) (f : SPlayer → SPlayer) :
    (updatePlayer st conn f).map Prod.fst = st.map Prod.fst := by
  induction st with
  | nil => rfl
  | cons a t ih =>
    simp only [updatePlayer, List.map_cons] at ih ⊢
    by_cases h : (a.1 == conn) = true
    · simp only [h, if_true, List.map_cons, ih]
    · rw [Bool.not_eq_true] at h
      simp only [h, Bool.false_eq_true, if_false, List.map_cons, ih]

lemma mem_updatePlayer_of_ne (st : ServerState) (conn : ConnId)
    (f : SPlayer → SPlayer) (c : ConnId) (q : SPlayer)
    (hne : c ≠ conn) (hmem : (c, q) ∈ st) :
    (c, q) ∈ updatePlayer st conn f := by
  unfold updatePlayer
  refine List.mem_map.mpr ⟨(c, q), hmem, ?_⟩
  simp [hne]

lemma getPlayer_updatePlayer_self (st : ServerState) (conn : ConnId)
    (f : SPlayer → SPlayer) (p : SPlayer)
    (h : getPlayer st conn = some p) :
    getPlayer (updatePlayer st conn f) conn = some (f p) := by
  induction st with
  | nil => simp [getPlayer] at h
  | cons a t ih =>
    by_cases ha : (a.1 == conn) = true
    · have h1 : getPlayer (a :: t) conn = some a.2 := by
        unfold getPlayer
        rw [@List.find?_cons_of_pos _ (fun e => e.1 == conn) a t ha]
        rfl
      have hp : a.2 = p := Option.some.inj (h1.symm.trans h)
      have hstep : updatePlayer (a :: t) conn f
          = (a.1, f a.2) :: updatePlayer t conn f := by
        unfold updatePlayer
        rw [List.map_cons, if_pos ha]
      rw [hstep]
      have h2 : getPlayer ((a.1, f a.2) :: updatePlayer t conn f) conn
          = some (f a.2) := by
        unfold getPlayer
        rw [@List.find?_cons_of_pos _ (fun e => e.1 == conn) (a.1, f a.2)
          (updatePlayer t conn f) ha]
        rfl
      rw [h2, hp]
    · have h1 : getPlayer (a :: t) conn = getPlayer t conn := by
        unfold getPlayer
        rw [@List.find?_cons_of_neg _ (fun e => e.1 == conn) a t ha]
      rw [h1] at h
      have hstep : updatePlayer (a :: t) conn f = a :: updatePlayer t conn f := by
        unfold updatePlayer
        rw [List.map_cons, if_neg ha]
      rw [hstep]
      have h2 : getPlayer (a :: updatePlayer t conn f) conn
          = getPlayer (updatePlayer t conn f) conn := by
        unfold getPlayer
        rw [@List.find?_cons_of_neg _ (fun e => e.1 == conn) a
          (updatePlayer t conn f) ha]
      rw [h2]
      exact ih h

lemma filter_updatePlayer (st : ServerState) (conn : ConnId)
    (f : SPlayer → SPlayer) (P : ConnId × SPlayer → Bool) :
    (updatePlayer st conn f).filter (fun e => P e && e.1 != conn)
      = st.filter (fun e => P e && e.1 != conn) := by
  induction st with
  | nil => rfl
  | cons a t ih =>
    obtain ⟨k, v⟩ := a
    by_cases h : (k == conn) = true
    · have hstep : updatePlayer ((k, v) :: t) conn f
          = (k, f v) :: updatePlayer t conn f := by
        unfold updatePlayer
        rw [List.map_cons, if_pos h]
      have hk : k = conn := by simpa using h
      subst hk
      rw [hstep, List.filter_cons, List.filter_cons]
      simp only [bne_self_eq_false, Bool.and_false, Bool.false_eq_true, if_false]
      exact ih
    · have hstep : updatePlayer ((k, v) :: t) conn f
          = (k, v) :: updatePlayer t conn f := by
        unfold updatePlayer
        rw [List.map_cons, if_neg h]
      rw [hstep, List.filter_cons, List.filter_cons]
      by_cases hP : (P (k, v) && (k, v).1 != conn) = true
      · simp only [hP, if_true, ih]
      · rw [Bool.not_eq_true] at hP
        simp only [hP, Bool.false_eq_true, if_false, ih]

end Server

open MapR Engine Server

/-! ## Claim theorems -/

/-- C4 (counterexample): the neighbor query does NOT treat two tile IDs
of the same 48-ID slot as the same autotile type.  In `mapTwoVariations`
the tile rendered at (1, 0) has ID 49; its left neighbor's top-most
non-empty tile ID is 48 — same slot (1), different variation — yet the
`hasLeft` flag is false, because the source compares raw IDs with
strict equality. -/
theorem neighbor_query_slot_counterexample :
    hasLeft mapTwoVariations 49 1 0 = false ∧
    getTileIdAt mapTwoVariations 0 0 = 48 ∧
    (48 : Nat) / 48 = 49 / 48 ∧ (48 : Nat) % 48 ≠ 49 % 48 := by
  decide

/-- C4 (amended): the neighbor query returns true iff the top-most
non-empty tile ID at the offset position belongs to the same 48-ID slot
AND has the same variation value as the tile being rendered — that is,
iff it is exactly the same tile ID.  Two IDs in the same slot with
different variations count as different autotile types. -/
theorem neighbor_query_exact_tile_id (m : MapData) (tileId x y dx dy : Int)
    (hpos : 0 < tileId) :
    neighborSameAt m tileId x y dx dy = true ↔
      (0 < getTileIdAt m (x + dx) (y + dy) ∧
       (getTileIdAt m (x + dx) (y + dy)).toNat / 48 = tileId.toNat / 48 ∧
       (getTileIdAt m (x + dx) (y + dy)).toNat % 48 = tileId.toNat % 48) := by
  unfold neighborSameAt
  rw [beq_iff_eq]
  constructor
  · rintro h
    rw [h]
    exact ⟨hpos, rfl, rfl⟩
  · rintro ⟨hu, hdiv, hmod⟩
    omega

/-- C4 witness: for rendered tile ID 48 at (1, 0) of `mapTwoVariations`,
the left neighbor's top-most tile ID is exactly 48, so the query
answers true. -/
theorem neighbor_query_exact_tile_id_witness :
    neighborSameAt mapTwoVariations 48 1 0 (-1) 0 = true := by
  have h := neighbor_query_exact_tile_id mapTwoVariations 48 1 0 (-1) 0
    (by decide)
  exact h.mpr (by decide)

/-- C5: quadrant classification is the pure function `getMiniTile` of
the neighbor flags and the quadrant role, with the claimed precedence:
both cardinals and the diagonal present give the inner tiles; both
cardinals without the diagonal give the inner-cut corner tiles; both
cardinals absent give the outer-corner pair regardless of the diagonal.
An isolated tile resolves all four quadrants to the outer-corner pair
(0,2)/(5,2); a fully surrounded tile resolves the four quadrants to the
four pairwise distinct inner coordinates. -/
theorem autotile_quadrant_classification :
    (getMiniTile true true true .TL = (1, 3) ∧
     getMiniTile true true true .TR = (2, 3) ∧
     getMiniTile true true true .BL = (1, 4) ∧
     getMiniTile true true true .BR = (2, 4)) ∧
    (getMiniTile true true false .TL = (0, 0) ∧
     getMiniTile true true false .TR = (1, 0) ∧
     getMiniTile true true false .BL = (4, 0) ∧
     getMiniTile true true false .BR = (5, 0)) ∧
    (∀ dg : Bool,
      getMiniTile false false dg .TL = (0, 2) ∧
      getMiniTile false false dg .TR = (5, 2) ∧
      getMiniTile false false dg .BL = (0, 2) ∧
      getMiniTile false false dg .BR = (5, 2)) ∧
    quadrantTiles false false false false false false false false =
      ((0, 2), (5, 2), (0, 2), (5, 2)) ∧
    quadrantTiles true true true true true true true true =
      ((1, 3), (2, 3), (1, 4), (2, 4)) ∧
    [((1 : Nat), (3 : Nat)), (2, 3), (1, 4), (2, 4)].Nodup := by
  decide

/-- C6: resolving tile ID 0 yields null (skip draw); a positive ID
below 384 delegates to the autotile path; an ID at or above 384 yields
the static offset with column `(t - 384) % 8` and row
`(t - 384) / 8`, each scaled by the 32-pixel tile size. -/
theorem tile_id_resolution :
    (getTileCoords 32 0 = none) ∧
    (∀ t : Nat, 0 < t → t < 384 →
      getTileCoords 32 t = some (.autotileDelegate t)) ∧
    (∀ t : Nat, 384 ≤ t →
      getTileCoords 32 t =
        some (.coords ((t - 384) % 8 * 32) ((t - 384) / 8 * 32))) := by
  refine ⟨rfl, ?_, ?_⟩
  · intro t ht h384
    unfold getTileCoords
    rw [if_neg (by omega), if_pos h384]
  · intro t h384
    unfold getTileCoords
    rw [if_neg (by omega), if_neg (by omega)]
    rfl

/-- C6 witness: ID 5 goes down the autotile path; ID 500 resolves to
pixel offset (128, 448) — column (500-384) % 8 = 4, row
(500-384) / 8 = 14, each scaled by 32. -/
theorem tile_id_resolution_witness :
    getTileCoords 32 5 = some (.autotileDelegate 5) ∧
    getTileCoords 32 500 = some (.coords 128 448) := by
  constructor
  · exact tile_id_resolution.2.1 5 (by decide) (by decide)
  · have h := tile_id_resolution.2.2 500 (by decide)
    simpa using h

set_option maxRecDepth 4000 in
/-- C7 (counterexample): no tile ID below 384 is blocking.  The claim
that some autotile ID below 384 is blocking fails: the deep-water test
used there, `2048 <= t <= 2200`, can never hold for t < 384, so every
ID in 0..383 is passable. -/
theorem autotile_blocking_counterexample :
    ((List.range 384).all fun t => !isBlockingTile t) = true := by
  decide

/-- C7 (amended): `isBlockingTile` returns false for 0; among IDs
1..383 it is blocking only when the ID lies in the deep-water range
2048..2200 — which is disjoint from 1..383, so in fact no autotile ID
below 384 is blocking; for IDs at or above 384 it returns true iff the
ID falls inside one of the fixed disjoint inclusive blocking ranges. -/
theorem blocking_table (t : Nat) :
    (t < 384 → isBlockingTile t = false) ∧
    (384 ≤ t →
      (isBlockingTile t = true ↔ ∃ r ∈ blockingRanges, r.1 ≤ t ∧ t ≤ r.2)) := by
  constructor
  · intro h
    unfold isBlockingTile
    rcases Nat.eq_zero_or_pos t with h0 | h0
    · rw [if_pos h0]
    · rw [if_neg (by omega), if_pos h]
      simp only [Bool.and_eq_false_iff, decide_eq_false_iff_not]
      left
      omega
  · intro h
    unfold isBlockingTile
    rw [if_neg (by omega), if_neg (by omega)]
    rw [List.any_eq_true]
    constructor
    · rintro ⟨r, hr, hp⟩
      simp only [Bool.and_eq_true, decide_eq_true_eq] at hp
      exact ⟨r, hr, hp⟩
    · rintro ⟨r, hr, hp⟩
      refine ⟨r, hr, ?_⟩
      simp only [Bool.and_eq_true, decide_eq_true_eq]
      exact hp

/-- C7 witness: autotile ID 100 is passable; static ID 800 (first tree
range) is blocking. -/
theorem blocking_table_witness :
    isBlockingTile 100 = false ∧ isBlockingTile 800 = true := by
  constructor
  · exact (blocking_table 100).1 (by decide)
  · exact ((blocking_table 800).2 (by decide)).mpr ⟨(800, 827), by decide, by decide⟩

/-- C8: `startMove` called while already Moving returns false and is a
no-op — the whole player state (position, target, direction,
moveProgress, animation fields) is returned unchanged and no onMove
event fires. -/
theorem startMove_rejected_while_moving (p : Player) (dx dy : Int)
    (h : p.isMoving = true) :
    p.startMove dx dy = (false, p, []) := by
  unfold Player.startMove
  rw [if_pos h]

/-- C8 witness: the mid-move sample player rejects a new move request
unchanged. -/
theorem startMove_rejected_while_moving_witness :
    movingSample.startMove 1 0 = (false, movingSample, []) :=
  startMove_rejected_while_moving movingSample 1 0 rfl

/-- C10: for an Idle player, `update` leaves every field unchanged for
every elapsed time — position, target, direction, moveProgress,
animationFrame and animationTimer — and fires no event; the walk-cycle
timer only ever advances inside the Moving branch. -/
theorem update_noop_while_idle (p : Player) (dt : ℚ)
    (h : p.isMoving = false) :
    p.update dt = (p, []) := by
  unfold Player.update
  rw [if_neg (by simp [h])]

/-- C10 witness: updating an idle player by one second returns it
untouched. -/
theorem update_noop_while_idle_witness :
    (Player.init 2 3).update 1 = (Player.init 2 3, []) :=
  update_noop_while_idle (Player.init 2 3) 1 rfl

lemma motionInvariant_applyOp (p : Player) (op : PlayerOp)
    (hv : validOp op = true) (hinv : MotionInvariant p) :
    MotionInvariant (applyOp p op) := by
  obtain ⟨hmv, hidle⟩ := hinv
  cases op with
  | move dx dy =>
    simp only [validOp, Bool.or_eq_true, Bool.and_eq_true, beq_iff_eq] at hv
    by_cases hm : p.isMoving = true
    · have hr : applyOp p (.move dx dy) = p := by
        simp only [applyOp, Player.startMove, hm, if_true]
      rw [hr]
      exact ⟨hmv, hidle⟩
    · rw [Bool.not_eq_true] at hm
      have hr : applyOp p (.move dx dy) = { p with
          direction := if 0 < dy then 0 else if dy < 0 then 3
            else if dx < 0 then 1 else if 0 < dx then 2 else p.direction,
          targetX := p.x + dx, targetY := p.y + dy,
          isMoving := true, moveProgress := 0 } := by
        simp only [applyOp, Player.startMove, hm, Bool.false_eq_true, if_false]
      rw [hr]
      constructor
      · intro _
        unfold OneTileAway
        simp only
        rcases hv with ⟨hdx, hdy⟩ | ⟨hdy, hdx⟩ <;> omega
      · intro hc
        simp at hc
  | upd dt =>
    by_cases hm : p.isMoving = true
    · by_cases hc : (1 : ℚ) ≤ p.moveProgress + p.moveSpeed * dt
      · have hr : applyOp p (.upd dt) = { p with
            x := p.targetX, y := p.targetY,
            isMoving := false, moveProgress := 0, animationFrame := 0 } := by
          simp only [applyOp, Player.update, hm, if_true, hc]
        rw [hr]
        constructor
        · intro hc2
          simp at hc2
        · intro _
          exact ⟨rfl, rfl⟩
      · have h1 := hmv hm
        unfold OneTileAway at h1
        by_cases ht : p.frameInterval ≤ p.animationTimer + dt
        · have hr : applyOp p (.upd dt) = { p with
              moveProgress := p.moveProgress + p.moveSpeed * dt,
              animationTimer := 0,
              animationFrame := (p.animationFrame + 1) % 4 } := by
            simp only [applyOp, Player.update, hm, if_true, hc, if_false, ht]
          rw [hr]
          constructor
          · intro _
            unfold OneTileAway
            simpa using h1
          · intro hc2
            rw [hm] at hc2
            cases hc2
        · have hr : applyOp p (.upd dt) = { p with
              moveProgress := p.moveProgress + p.moveSpeed * dt,
              animationTimer := p.animationTimer + dt } := by
            simp only [applyOp, Player.update, hm, if_true, hc, if_false, ht]
          rw [hr]
          constructor
          · intro _
            unfold OneTileAway
            simpa using h1
          · intro hc2
            rw [hm] at hc2
            cases hc2
    · rw [Bool.not_eq_true] at hm
      have hr : applyOp p (.upd dt) = p := by
        simp only [applyOp, Player.update, hm, Bool.false_eq_true, if_false]
      rw [hr]
      exact ⟨hmv, hidle⟩
  | set x y d mv =>
    simp only [validOp, decide_eq_true_eq] at hv
    cases mv with
    | true =>
      have hr : applyOp p (.set x y d true) =
          { (if true && !p.isMoving then
              { p with moveProgress := 0, animationFrame := 0,
                       animationTimer := 0 } else p) with
            x := x, y := y, direction := d, isMoving := true,
            targetX := if d = 2 then x + 1 else if d = 1 then x - 1 else x,
            targetY := if d = 0 then y + 1 else if d = 3 then y - 1 else y } := by
        simp only [applyOp, Player.setState, if_true]
      rw [hr]
      constructor
      · intro _
        unfold OneTileAway
        simp only
        interval_cases d <;> simp
      · intro hc
        simp at hc
    | false =>
      have hr : applyOp p (.set x y d false) =
          { (if false && !p.isMoving then
              { p with moveProgress := 0, animationFrame := 0,
                       animationTimer := 0 } else p) with
            x := x, y := y, direction := d, isMoving := false,
            targetX := x, targetY := y } := by
        simp only [applyOp, Player.setState, Bool.false_eq_true, if_false,
          Bool.false_and]
      rw [hr]
      constructor
      · intro hc
        simp at hc
      · intro _
        exact ⟨rfl, rfl⟩

lemma motionInvariant_foldl (p : Player) (ops : List PlayerOp)
    (hinv : MotionInvariant p) (hops : ops.all validOp = true) :
    MotionInvariant (ops.foldl applyOp p) := by
  induction ops generalizing p with
  | nil => exact hinv
  | cons op rest ih =>
    rw [List.all_cons, Bool.and_eq_true] at hops
    exact ih (applyOp p op) (motionInvariant_applyOp p op hops.1 hinv) hops.2

/-- C9: starting from an Idle player whose target equals its position,
every sequence of `startMove` calls with unit deltas, `update` calls
with non-negative elapsed time and `setState` calls with one of the
four directions preserves the invariant: while Moving the target is
exactly one tile away along exactly one axis, and while Idle the target
equals the position. -/
theorem motion_invariant_preserved (p : Player) (ops : List PlayerOp)
    (hIdle : p.isMoving = false) (hx : p.targetX = p.x) (hy : p.targetY = p.y)
    (hops : ops.all validOp = true) :
    MotionInvariant (ops.foldl applyOp p) := by
  refine motionInvariant_foldl p ops ⟨?_, fun _ => ⟨hx, hy⟩⟩ hops
  intro hc
  rw [hIdle] at hc
  cases hc

/-- C9 witness: from an idle player at the origin, a unit move right, a
one-second update (which completes the move) and a network `setState`
facing up keep the invariant. -/
theorem motion_invariant_preserved_witness :
    MotionInvariant
      ([PlayerOp.move 1 0, PlayerOp.upd 1,
        PlayerOp.set 5 5 3 true].foldl applyOp (Player.init 0 0)) :=
  motion_invariant_preserved (Player.init 0 0)
    [PlayerOp.move 1 0, PlayerOp.upd 1, PlayerOp.set 5 5 3 true]
    rfl rfl rfl (by decide)

/-- C1 (counterexample): the very first connection's INIT does NOT
carry an empty players list — the server inserts the new record before
building the snapshot and never filters the connecting player out, so
the first INIT contains exactly one entry: the connecting player's own
record. -/
theorem connect_init_counterexample :
    sentTo (handleConnect [] 0 10 0).2 0 ≠ [ServerMsg.init 10 []] ∧
    sentTo (handleConnect [] 0 10 0).2 0 =
      [ServerMsg.init 10 [defaultSpawn 10 0]] := by
  constructor
  · decide
  · rfl

/-- C1 (amended): on a new connection the server replies with an INIT
whose players list contains exactly the records of players sharing the
connecting player's spawn map (79), INCLUDING the connecting player
itself; in particular the first connection on its spawn map receives an
INIT whose players array has exactly one entry (its own record), and a
second connection to the same map receives exactly two entries (the
first player's record and its own) while the first connection receives
a PLAYER_JOIN for the second player. -/
theorem connect_init_snapshot (st : ServerState) (conn : ConnId)
    (pid sid : Nat) :
    (handleConnect st conn pid sid).1 = st ++ [(conn, defaultSpawn pid sid)] ∧
    sentTo (handleConnect st conn pid sid).2 conn =
      [ServerMsg.init pid
        (((st ++ [(conn, defaultSpawn pid sid)]).map Prod.snd).filter
          fun r => r.mapId == 79)] ∧
    defaultSpawn pid sid ∈
      ((st ++ [(conn, defaultSpawn pid sid)]).map Prod.snd).filter
        (fun r => r.mapId == 79) ∧
    sentTo (handleConnect [] 0 10 0).2 0 =
      [ServerMsg.init 10 [defaultSpawn 10 0]] ∧
    sentTo (handleConnect (handleConnect [] 0 10 0).1 1 11 1).2 1 =
      [ServerMsg.init 11 [defaultSpawn 10 0, defaultSpawn 11 1]] ∧
    sentTo (handleConnect (handleConnect [] 0 10 0).1 1 11 1).2 0 =
      [ServerMsg.playerJoin (defaultSpawn 11 1)] := by
  refine ⟨rfl, ?_, ?_, rfl, rfl, rfl⟩
  · have hstep : (handleConnect st conn pid sid).2 =
        { dest := conn,
          msg := ServerMsg.init pid
            (((st ++ [(conn, defaultSpawn pid sid)]).map Prod.snd).filter
              fun r => r.mapId == 79) } ::
        broadcastToMap (st ++ [(conn, defaultSpawn pid sid)]) 79
          (ServerMsg.playerJoin (defaultSpawn pid sid)) (some conn) := rfl
    rw [hstep]
    have hb := sentTo_broadcast_excluded (st ++ [(conn, defaultSpawn pid sid)])
      79 (ServerMsg.playerJoin (defaultSpawn pid sid)) conn
    unfold sentTo at hb ⊢
    rw [List.filter_cons]
    simp only [beq_self_eq_true, if_true, List.map_cons, hb]
  · refine List.mem_filter.mpr ⟨?_, rfl⟩
    rw [List.map_append]
    exact List.mem_append_right _ (by simp)

/-- C3: a MOVE message from a connected player updates that player's
record (position, direction, motion flag, and mapId when the message
carries one); the resulting PLAYER_MOVE, carrying the sender's id, is
delivered exactly to the other connections whose record shares the
sender's (updated) map, and the sender gets no echo; a connection on a
different map receives nothing. -/
theorem move_broadcast_same_map_only (st : ServerState) (conn : ConnId)
    (x y : Int) (d : Nat) (mv : Bool) (mo : Option Nat)
    (p : SPlayer) (c : ConnId) (q : SPlayer)
    (hnd : (st.map Prod.fst).Nodup)
    (hp : getPlayer st conn = some p)
    (hcq : (c, q) ∈ st) (hne : c ≠ conn) :
    getPlayer (handleMove st conn x y d mv mo).1 conn
      = some (moveUpdate p x y d mv mo) ∧
    sentTo (handleMove st conn x y d mv mo).2 c =
      (if q.mapId = (moveUpdate p x y d mv mo).mapId
       then [ServerMsg.playerMove p.id x y d mv (moveUpdate p x y d mv mo).mapId]
       else []) ∧
    sentTo (handleMove st conn x y d mv mo).2 conn = [] := by
  have h1 : (handleMove st conn x y d mv mo).1 =
      updatePlayer st conn fun _ => moveUpdate p x y d mv mo := by
    unfold handleMove
    rw [hp]
  have h2 : (handleMove st conn x y d mv mo).2 =
      broadcastToMap (updatePlayer st conn fun _ => moveUpdate p x y d mv mo)
        (moveUpdate p x y d mv mo).mapId
        (ServerMsg.playerMove p.id x y d mv (moveUpdate p x y d mv mo).mapId)
        (some conn) := by
    unfold handleMove
    rw [hp]
    rfl
  have hnd1 : ((updatePlayer st conn fun _ => moveUpdate p x y d mv mo).map
      Prod.fst).Nodup := by
    rw [keys_updatePlayer]
    exact hnd
  have hmem1 : (c, q) ∈ updatePlayer st conn fun _ => moveUpdate p x y d mv mo :=
    mem_updatePlayer_of_ne st conn _ c q hne hcq
  have hxc : some conn ≠ some c := fun hcc => hne (Option.some.inj hcc).symm
  refine ⟨?_, ?_, ?_⟩
  · rw [h1]
    exact getPlayer_updatePlayer_self st conn _ p hp
  · rw [h2]
    by_cases hq : q.mapId = (moveUpdate p x y d mv mo).mapId
    · rw [sentTo_broadcast_mem _ _ _ _ _ q hnd1 hmem1, if_pos ⟨hq, hxc⟩,
        if_pos hq]
    · rw [sentTo_broadcast_mem _ _ _ _ _ q hnd1 hmem1,
        if_neg (fun hcon => hq hcon.1), if_neg hq]
  · rw [h2]
    exact sentTo_broadcast_excluded _ _ _ conn

/-- C3 witness (end-to-end scenario A): with A on connection 0 (map
79), B on connection 1 (map 79) and C on connection 2 (map 5), a MOVE
from A carrying mapId 79 reaches B as a PLAYER_MOVE for A's id, while C
receives nothing. -/
theorem move_broadcast_same_map_only_witness :
    sentTo (handleMove stABC 0 5 5 0 true (some 79)).2 1 =
      [ServerMsg.playerMove 100 5 5 0 true 79] ∧
    sentTo (handleMove stABC 0 5 5 0 true (some 79)).2 2 = [] := by
  have hB := move_broadcast_same_map_only stABC 0 5 5 0 true (some 79)
    { id := 100, x := 4, y := 4, direction := 0, isMoving := false,
      spriteId := 0, mapId := 79 }
    1
    { id := 101, x := 6, y := 6, direction := 1, isMoving := false,
      spriteId := 1, mapId := 79 }
    (by decide) rfl (by decide) (by decide)
  have hC := move_broadcast_same_map_only stABC 0 5 5 0 true (some 79)
    { id := 100, x := 4, y := 4, direction := 0, isMoving := false,
      spriteId := 0, mapId := 79 }
    2
    { id := 102, x := 8, y := 8, direction := 2, isMoving := false,
      spriteId := 2, mapId := 5 }
    (by decide) rfl (by decide) (by decide)
  constructor
  · exact (hB.2.1).trans (by decide)
  · exact (hC.2.1).trans (by decide)

/-- C2: a MAP_TRANSITION from map F to map T for connected player P
performs the ordered handshake: every other connection on F gets
PLAYER_LEAVE(P) and every other connection on T gets PLAYER_JOIN(P),
with the leave delivered before the join to any single recipient (the
two broadcasts are emitted in that order, around the mutation of P's
record to the new position and map); P itself receives exactly one
PLAYER_JOIN per other occupant already on map T — zero messages when T
has no other occupant — and no echo of the leave/join broadcasts. -/
theorem transition_handshake (st : ServerState) (conn : ConnId)
    (fromMap toMap : Nat) (x y : Int) (p : SPlayer) (c : ConnId) (q : SPlayer)
    (hnd : (st.map Prod.fst).Nodup)
    (hp : getPlayer st conn = some p)
    (hcq : (c, q) ∈ st) (hne : c ≠ conn) :
    getPlayer (handleMapTransition st conn fromMap toMap x y).1 conn
      = some (transUpdate p x y toMap) ∧
    sentTo (handleMapTransition st conn fromMap toMap x y).2 c =
      (if q.mapId = fromMap then [ServerMsg.playerLeave p.id] else []) ++
      (if q.mapId = toMap
       then [ServerMsg.playerJoin (transUpdate p x y toMap)] else []) ∧
    sentTo (handleMapTransition st conn fromMap toMap x y).2 conn =
      ((st.filter fun e => e.2.mapId == toMap && e.1 != conn).map Prod.snd).map
        ServerMsg.playerJoin := by
  have h1 : (handleMapTransition st conn fromMap toMap x y).1 =
      updatePlayer st conn fun _ => transUpdate p x y toMap := by
    unfold handleMapTransition
    rw [hp]
  have h2 : (handleMapTransition st conn fromMap toMap x y).2 =
      broadcastToMap st fromMap (ServerMsg.playerLeave p.id) (some conn) ++
      broadcastToMap (updatePlayer st conn fun _ => transUpdate p x y toMap)
        toMap (ServerMsg.playerJoin (transUpdate p x y toMap)) (some conn) ++
      (((updatePlayer st conn fun _ => transUpdate p x y toMap).filter
          fun e => e.2.mapId == toMap && e.1 != conn).map Prod.snd).map
        fun r => Send.mk conn (ServerMsg.playerJoin r) := by
    unfold handleMapTransition
    rw [hp]
  have hnd1 : ((updatePlayer st conn fun _ => transUpdate p x y toMap).map
      Prod.fst).Nodup := by
    rw [keys_updatePlayer]
    exact hnd
  have hmem1 : (c, q) ∈ updatePlayer st conn fun _ => transUpdate p x y toMap :=
    mem_updatePlayer_of_ne st conn _ c q hne hcq
  have hxc : some conn ≠ some c := fun hcc => hne (Option.some.inj hcc).symm
  refine ⟨?_, ?_, ?_⟩
  · rw [h1]
    exact getPlayer_updatePlayer_self st conn _ p hp
  · have hl := sentTo_broadcast_mem st fromMap (ServerMsg.playerLeave p.id)
      (some conn) c q hnd hcq
    have hj := sentTo_broadcast_mem
      (updatePlayer st conn fun _ => transUpdate p x y toMap) toMap
      (ServerMsg.playerJoin (transUpdate p x y toMap)) (some conn) c q hnd1 hmem1
    have hbf := sentTo_uniform
      (((updatePlayer st conn fun _ => transUpdate p x y toMap).filter
          fun e => e.2.mapId == toMap && e.1 != conn).map Prod.snd) conn
      (fun r => ServerMsg.playerJoin r) c
    rw [h2, sentTo_append, sentTo_append, hl, hj, hbf]
    have hcc : ¬ conn = c := fun hcon => hne hcon.symm
    by_cases hf : q.mapId = fromMap <;> by_cases ht : q.mapId = toMap <;>
      simp [hf, ht, hxc, hcc]
  · have hbf := sentTo_uniform
      (((updatePlayer st conn fun _ => transUpdate p x y toMap).filter
          fun e => e.2.mapId == toMap && e.1 != conn).map Prod.snd) conn
      (fun r => ServerMsg.playerJoin r) conn
    rw [h2, sentTo_append, sentTo_append, sentTo_broadcast_excluded,
      sentTo_broadcast_excluded, hbf, if_pos rfl,
      filter_updatePlayer st conn _ (fun e => e.2.mapId == toMap)]
    simp

/-- C2 witness (end-to-end scenario C): with P on connection 0 (map
79), another player on connection 1 (map 79) and a third on connection
2 (map 5), a MAP_TRANSITION of P from 79 to 5 delivers PLAYER_LEAVE(P)
to connection 1, PLAYER_JOIN(P) to connection 2, and delivers to P one
PLAYER_JOIN for the single pre-existing occupant of map 5. -/
theorem transition_handshake_witness :
    sentTo (handleMapTransition stABC 0 79 5 3 4).2 1 =
      [ServerMsg.playerLeave 100] ∧
    sentTo (handleMapTransition stABC 0 79 5 3 4).2 2 =
      [ServerMsg.playerJoin
        { id := 100, x := 3, y := 4, direction := 0, isMoving := false,
          spriteId := 0, mapId := 5 }] ∧
    sentTo (handleMapTransition stABC 0 79 5 3 4).2 0 =
      [ServerMsg.playerJoin
        { id := 102, x := 8, y := 8, direction := 2, isMoving := false,
          spriteId := 2, mapId := 5 }] := by
  have hB := transition_handshake stABC 0 79 5 3 4
    { id := 100, x := 4, y := 4, direction := 0, isMoving := false,
      spriteId := 0, mapId := 79 }
    1
    { id := 101, x := 6, y := 6, direction := 1, isMoving := false,
      spriteId := 1, mapId := 79 }
    (by decide) rfl (by decide) (by decide)
  have hC := transition_handshake stABC 0 79 5 3 4
    { id := 100, x := 4, y := 4, direction := 0, isMoving := false,
      spriteId := 0, mapId := 79 }
    2
    { id := 102, x := 8, y := 8, direction := 2, isMoving := false,
      spriteId := 2, mapId := 5 }
    (by decide) rfl (by decide) (by decide)
  exact ⟨(hB.2.1).trans (by decide), (hC.2.1).trans (by decide),
    (hC.2.2).trans (by decide)⟩
